import Mathlib

/-!
A shallow embedding of flloc (src/flloc.c): a tracking allocator that wraps
malloc/calloc/realloc/free/strdup/strndup, keeps a hash table of allocation
records, stamps guard bytes around every allocation and checks them on free.
Machine integers (`size_t`, `unsigned long`) are modelled as `Nat` with
explicit reduction modulo `2^64` where the C performs arithmetic on them.
Calls into the real allocator are modelled by oracle parameters giving the
address the allocator returned (or `none` for exhaustion).
-/

namespace Flloc

/-- Fill pattern for guard blocks (`FLLOC_FILL`, `0xa5` in flloc.c). -/
def FLLOC_FILL : Nat := 0xa5

/-- Modulus of the machine word (`size_t` / `unsigned long` on LP64). -/
def WORD : Nat := 2 ^ 64

/-- Truncation to `size_t` width, applied where the C performs arithmetic on
`size_t` / `unsigned long` values. -/
def truncW (x : Nat) : Nat := x % WORD

/-- `sizeof(struct Record)` on LP64: three 8-byte fields.  It only appears in
the arguments of `EV_FAIL` log lines. -/
def recordSizeof : Nat := 24

/-- The `Event` enumeration of flloc.c. -/
inductive Event
  | mallocEv | callocEv | reallocEv | freeEv | badfreeEv
  | strdupEv | strndupEv | ploughEv | failEv | userEv
deriving DecidableEq

/-- One line written by the logging path: the event, the call-site file and
line, and the numeric arguments (pointers and sizes) of the formatted
message. -/
structure LogLine where
  ev : Event
  src : Option String
  srcLine : Int
  args : List Nat
deriving DecidableEq

/-- The destination the logging path writes to: the C global `gFile` is a
`FILE*` that is `NULL` initially and is only ever reassigned by `parseConfig`
through `fopen`; `stdErr` is the process standard error stream (used by the
C code only for `fprintf(stderr, ...)` warnings, never assigned to `gFile`). -/
inductive OutDest
  | nullFile
  | stdErr
  | openedFile (h : Nat)
deriving DecidableEq

/-- An allocation record (`struct Record`): the real address returned by the
underlying allocator and the user size.  The struct's `next` pointer is
represented by the order of records inside a bucket list. -/
structure Rec where
  real : Nat
  size : Nat
deriving DecidableEq

/-- The process-wide mutable state of flloc.c: `gInitialised`, `gGuardSize_B`,
`gFile`, the hash table `gRecords`, the byte-addressable heap contents, the
number of process-exit hooks registered with `atexit` (no code in flloc.c
ever calls `atexit`, so nothing in the embedding increments it), and the
sequence of log lines written so far, each paired with the destination it was
written to. -/
structure FllocState where
  initialised : Bool
  guardSize : Nat
  file : OutDest
  buckets : Nat → List Rec
  mem : Nat → Nat
  exitHooks : Nat
  output : List (OutDest × LogLine)

/-- Result of an operation that may `abort()` the process or run into
undefined behaviour (such as dereferencing a null pointer). -/
inductive Outcome (α : Type)
  | ok (a : α)
  | abort
  | ub

/-- The value returned by an allocation-style operation, or `none` if the
operation aborted or hit undefined behaviour. -/
def retOf : Outcome (Option Nat × FllocState) → Option (Option Nat)
  | .ok (p, _) => some p
  | _ => none

/-- The state after an allocation-style operation, with a fallback for the
abort / undefined-behaviour outcomes. -/
def stOfD (e : Outcome (Option Nat × FllocState)) (fb : FllocState) : FllocState :=
  match e with
  | .ok (_, s) => s
  | _ => fb

/-- The state after a state-only operation, with a fallback for the abort /
undefined-behaviour outcomes. -/
def stOfSD (e : Outcome FllocState) (fb : FllocState) : FllocState :=
  match e with
  | .ok s => s
  | _ => fb

/-- Whether an outcome is a process abort. -/
def Outcome.isAbort {α : Type} : Outcome α → Bool
  | .abort => true
  | _ => false

/-- `ptr2index` of flloc.c: the pointer is cast to `uint32_t`, shifted right
by 4, and the result is returned as a `uint16_t` (bits 4 to 19). -/
def ptr2index (real : Nat) : Nat := (real % 2 ^ 32 / 2 ^ 4) % 2 ^ 16

/-- Number of buckets of `gRecords` (`64 * 1024`). -/
def numBuckets : Nat := 64 * 1024

/-- `recordInsert` of flloc.c: append the record at the tail of the chain of
bucket `ptr2index rec.real`. -/
def recordInsert (st : FllocState) (rec : Rec) : FllocState :=
  { st with buckets := fun i =>
      if i = ptr2index rec.real then st.buckets i ++ [rec] else st.buckets i }

/-- The chain walk of `recordRemove`: unlink and return the first record of
the chain whose key matches, or report not-found and leave the chain as is. -/
def removeFirst (real : Nat) : List Rec → Option Rec × List Rec
  | [] => (none, [])
  | r :: rs =>
    if r.real = real then (some r, rs)
    else
      let p := removeFirst real rs
      (p.1, r :: p.2)

/-- `recordRemove` of flloc.c: remove the record keyed by `real` from its
bucket, returning it (or `none` if the key was never registered). -/
def recordRemove (st : FllocState) (real : Nat) : Option Rec × FllocState :=
  let i := ptr2index real
  let p := removeFirst real (st.buckets i)
  (p.1, { st with buckets := fun j => if j = i then p.2 else st.buckets j })

/-- Whether a real address is currently registered: the lookup flloc.c
performs, a scan of the chain of bucket `ptr2index real`. -/
def isRegistered (st : FllocState) (real : Nat) : Bool :=
  (st.buckets (ptr2index real)).any fun r => r.real == real

/-- `memset(a, c, n)` on a byte-addressable memory. -/
def memset (m : Nat → Nat) (a c n : Nat) : Nat → Nat :=
  fun x => if a ≤ x ∧ x < a + n then c else m x

/-- A single byte store. -/
def write1 (m : Nat → Nat) (a v : Nat) : Nat → Nat :=
  fun x => if x = a then v else m x

/-- Store a list of bytes at consecutive addresses starting at `a`. -/
def writeBytes (m : Nat → Nat) (a : Nat) : List Nat → Nat → Nat
  | [] => m
  | b :: bs => writeBytes (write1 m a b) (a + 1) bs

/-- `fillGuard` of flloc.c: when the guard size is positive, fill the
`guard` bytes before the user region and the `guard` bytes after it with the
fill pattern. -/
def fillGuard (guard real size : Nat) (m : Nat → Nat) : Nat → Nat :=
  if 0 < guard then
    memset (memset m real FLLOC_FILL guard) (real + guard + size) FLLOC_FILL guard
  else m

/-- The scan loop of `checkForCorruption`: return the address of the first of
the `n` bytes starting at `a` that does not hold the fill pattern. -/
def scanGuard (m : Nat → Nat) : Nat → Nat → Option Nat
  | _, 0 => none
  | a, n + 1 => if m a = FLLOC_FILL then scanGuard m (a + 1) n else some a

/-- `checkForCorruption` of flloc.c, as the address of the offending byte if
one exists: scan the leading guard range, then the trailing one, and stop at
the first mismatching byte (the C logs one `EV_PLOUGH` line and returns). -/
def checkForCorruption (guard : Nat) (rec : Rec) (m : Nat → Nat) : Option Nat :=
  match scanGuard m rec.real guard with
  | some p => some p
  | none => scanGuard m (rec.real + guard + rec.size) guard

/-- `vlog` of flloc.c: append one formatted line to the current output
destination (`gFile`). -/
def vlog (st : FllocState) (ev : Event) (src : Option String) (ln : Int)
    (args : List Nat) : FllocState :=
  { st with output := st.output ++ [(st.file, ⟨ev, src, ln, args⟩)] }

/-- The oracle inputs consumed by lazy initialization: the value of the
`FLLOC_CONFIG` environment variable (`getenv`), the `fopen(value, "w")`
oracle, and whether the internal `strdup` of the environment string
succeeds. -/
structure InitArgs where
  env : Option String
  openF : String → Option Nat
  dupOk : Bool

/-- `parseConfig` of flloc.c: `FILE=path` reopens the output destination
(fatal abort when the file cannot be opened); `GUARD=n` sets the guard size
(fatal abort when the value does not scan as an unsigned integer); any other
name only produces a warning on stderr and is ignored. -/
def parseConfig (openF : String → Option Nat) (name value : String)
    (st : FllocState) : Outcome FllocState :=
  if name = "FILE" then
    match openF value with
    | some h => .ok { st with file := .openedFile h }
    | none => .abort
  else if name = "GUARD" then
    match value.toNat? with
    | some v => .ok { st with guardSize := truncW v }
    | none => .abort
  else .ok st

/-- The `strtok_r` double loop of `initIfNeeded`: split the configuration
string on `;` into tokens, and each token on `=` into a name and a value;
tokens missing either part are skipped (`strtok` never yields empty
fields). -/
def configTokens (s : String) : List (String × String) :=
  (s.splitOn ";").filterMap fun t =>
    match (t.splitOn "=").filter (fun u => u ≠ "") with
    | n :: v :: _ => some (n, v)
    | _ => none

/-- Apply `parseConfig` to each `NAME=VALUE` token in order, propagating a
fatal abort. -/
def applyConfigTokens (openF : String → Option Nat) :
    List (String × String) → FllocState → Outcome FllocState
  | [], st => .ok st
  | (n, v) :: rest, st =>
    match parseConfig openF n v st with
    | .ok st' => applyConfigTokens openF rest st'
    | .abort => .abort
    | .ub => .ub

/-- `initIfNeeded` of flloc.c: on the first call, mark the library
initialised, zero the record table, read `FLLOC_CONFIG` and, when present,
duplicate it (fatal abort when that duplication fails) and apply each
`NAME=VALUE` token.  It registers no process-exit hook and assigns neither
the guard size nor the output destination outside of `parseConfig`. -/
def initIfNeeded (ia : InitArgs) (st : FllocState) : Outcome FllocState :=
  if st.initialised then .ok st
  else
    let st1 : FllocState := { st with initialised := true, buckets := fun _ => [] }
    match ia.env with
    | none => .ok st1
    | some str =>
      if ia.dupOk then applyConfigTokens ia.openF (configTokens str) st1
      else .abort

/-- `FllocMalloc`: allocate a record (oracle `recOk`), then ask the real
allocator for `size + 2*guard` bytes (oracle `realAlloc`); on success stamp
the guards, insert the record and return `real + guard`; on either failure
log `EV_FAIL` and return the null pointer. -/
def FllocMalloc (ia : InitArgs) (recOk : Bool) (realAlloc : Option Nat)
    (size : Nat) (src : Option String) (ln : Int) (st : FllocState) :
    Outcome (Option Nat × FllocState) :=
  match initIfNeeded ia st with
  | .abort => .abort
  | .ub => .ub
  | .ok st =>
    if recOk then
      let capacity := truncW (size + 2 * st.guardSize)
      match realAlloc with
      | none => .ok (none, vlog st .failEv src ln [size, capacity])
      | some real =>
        let st := { st with mem := fillGuard st.guardSize real size st.mem }
        let st := recordInsert st ⟨real, size⟩
        let ptr := real + st.guardSize
        let st := vlog st .mallocEv src ln [ptr, real, size, capacity]
        .ok (some ptr, st)
    else .ok (none, vlog st .failEv src ln [recordSizeof, recordSizeof])

/-- `FllocCalloc`: as `FllocMalloc` with `size = nmemb * mbsize` computed in
`size_t` arithmetic (wrapping modulo `2^64`, with no overflow check), and the
user region zero-filled before the guards are stamped. -/
def FllocCalloc (ia : InitArgs) (recOk : Bool) (realAlloc : Option Nat)
    (nmemb mbsize : Nat) (src : Option String) (ln : Int) (st : FllocState) :
    Outcome (Option Nat × FllocState) :=
  match initIfNeeded ia st with
  | .abort => .abort
  | .ub => .ub
  | .ok st =>
    if recOk then
      let size := truncW (nmemb * mbsize)
      let capacity := truncW (size + 2 * st.guardSize)
      match realAlloc with
      | none => .ok (none, vlog st .failEv src ln [size, capacity])
      | some real =>
        let st := { st with mem := memset st.mem (real + st.guardSize) 0 size }
        let st := { st with mem := fillGuard st.guardSize real size st.mem }
        let st := recordInsert st ⟨real, size⟩
        let ptr := real + st.guardSize
        let st := vlog st .callocEv src ln [ptr, real, size, capacity, nmemb, mbsize]
        .ok (some ptr, st)
    else .ok (none, vlog st .failEv src ln [recordSizeof, recordSizeof])

/-- `FllocRealloc`: allocate a fresh record, call the real `realloc` on the
pointer `p` exactly as passed by the caller (oracle `reallocRes` is its
result), stamp guards around the new block, insert the new record and return
`real + guard`.  The function performs no lookup of `p`: it never checks
whether `p` resolves to a registered address and never removes any existing
record. -/
def FllocRealloc (ia : InitArgs) (recOk : Bool) (reallocRes : Option Nat)
    (_p : Option Nat) (size : Nat) (src : Option String) (ln : Int)
    (st : FllocState) : Outcome (Option Nat × FllocState) :=
  match initIfNeeded ia st with
  | .abort => .abort
  | .ub => .ub
  | .ok st =>
    if recOk then
      let capacity := truncW (size + 2 * st.guardSize)
      match reallocRes with
      | none => .ok (none, vlog st .failEv src ln [size, capacity])
      | some real =>
        let st := { st with mem := fillGuard st.guardSize real size st.mem }
        let st := recordInsert st ⟨real, size⟩
        let ptr := real + st.guardSize
        let st := vlog st .reallocEv src ln [ptr, real, size, capacity]
        .ok (some ptr, st)
    else .ok (none, vlog st .failEv src ln [recordSizeof, recordSizeof])

/-- `FllocFree`: a null pointer is a silent no-op.  Otherwise compute the
real address `ptr - guard`, remove its record; when no record is found log
`EV_BADFREE` and continue, otherwise check the guards (logging `EV_PLOUGH`
at the first corrupted byte) and log `EV_FREE`.  In both branches the C then
passes the computed real address to `free` and returns normally: it never
aborts. -/
def FllocFree (ia : InitArgs) (ptr : Option Nat) (src : Option String)
    (ln : Int) (st : FllocState) : Outcome FllocState :=
  match ptr with
  | none => .ok st
  | some p =>
    match initIfNeeded ia st with
    | .abort => .abort
    | .ub => .ub
    | .ok st =>
      let real := p - st.guardSize
      let q := recordRemove st real
      match q.1 with
      | none => .ok (vlog q.2 .badfreeEv src ln [p, real])
      | some rec =>
        let st2 :=
          match checkForCorruption q.2.guardSize rec q.2.mem with
          | some a => vlog q.2 .ploughEv none 0 [rec.real + q.2.guardSize, rec.real, a]
          | none => q.2
        .ok (vlog st2 .freeEv src ln [p, real])

/-- `FllocStrdup`: a null source aborts before anything else.  Otherwise
allocate `strlen(s) + 1` user bytes as `FllocMalloc` does, log `EV_STRDUP`,
and copy the string (with its terminator) into the user region. -/
def FllocStrdup (ia : InitArgs) (recOk : Bool) (realAlloc : Option Nat)
    (s : Option (List Nat)) (src : Option String) (ln : Int)
    (st : FllocState) : Outcome (Option Nat × FllocState) :=
  match s with
  | none => .abort
  | some str =>
    match initIfNeeded ia st with
    | .abort => .abort
    | .ub => .ub
    | .ok st =>
      if recOk then
        let size := truncW (str.length + 1)
        let capacity := truncW (size + 2 * st.guardSize)
        match realAlloc with
        | none => .ok (none, vlog st .failEv src ln [size, capacity])
        | some real =>
          let st := { st with mem := fillGuard st.guardSize real size st.mem }
          let st := recordInsert st ⟨real, size⟩
          let ptr := real + st.guardSize
          let st := vlog st .strdupEv src ln [ptr, real, size, capacity]
          let st := { st with mem := writeBytes st.mem ptr (str ++ [0]) }
          .ok (some ptr, st)
      else .ok (none, vlog st .failEv src ln [recordSizeof, recordSizeof])

/-- `FllocStrndup`: the abort guard fires only when the source is null AND
`n > 0`; a null source with `n == 0` slips past it, and after the record
allocation succeeds the code computes `strlen(s)` on the null source, which
is undefined behaviour.  For a non-null source it duplicates at most
`min(strlen(s), n)` characters plus a terminator. -/
def FllocStrndup (ia : InitArgs) (recOk : Bool) (realAlloc : Option Nat)
    (s : Option (List Nat)) (n : Nat) (src : Option String) (ln : Int)
    (st : FllocState) : Outcome (Option Nat × FllocState) :=
  if s.isNone && decide (0 < n) then .abort
  else
    match initIfNeeded ia st with
    | .abort => .abort
    | .ub => .ub
    | .ok st =>
      if recOk then
        match s with
        | none => .ub
        | some str =>
          let size0 := if str.length > n then n else str.length
          let size := truncW (size0 + 1)
          let capacity := truncW (size + 2 * st.guardSize)
          match realAlloc with
          | none => .ok (none, vlog st .failEv src ln [size, capacity])
          | some real =>
            let st := { st with mem := fillGuard st.guardSize real size st.mem }
            let st := recordInsert st ⟨real, size⟩
            let ptr := real + st.guardSize
            let st := vlog st .strndupEv src ln [ptr, real, size, capacity]
            let copied := (str ++ List.replicate size 0).take size
            let st := { st with mem := writeBytes st.mem ptr copied }
            let st := { st with mem := write1 st.mem (ptr + size - 1) 0 }
            .ok (some ptr, st)
      else .ok (none, vlog st .failEv src ln [recordSizeof, recordSizeof])

/-- The static initial state of the globals of flloc.c: `gInitialised = 0`,
`gGuardSize_B = 0`, `gFile = NULL`, all buckets empty, and no exit hook
registered. -/
def fllocInitialState : FllocState :=
  { initialised := false
    guardSize := 0
    file := .nullFile
    buckets := fun _ => []
    mem := fun _ => 0
    exitHooks := 0
    output := [] }

/-- One line of the exit-time report: an itemized leak (with the user pointer
and the user size), a corruption line (with the user pointer and the address
of the offending byte), or the terminal "no leaks or corruption" summary. -/
inductive ReportLine
  | leak (ptr size : Nat)
  | corrupt (ptr a : Nat)
  | summaryOK
deriving DecidableEq

/-- All records of all buckets of the registry, in bucket order. -/
def allRecords (st : FllocState) : List Rec :=
  (List.range numBuckets).flatMap fun i => st.buckets i

/-- Modelled from the spec: the per-record step of the exit-time leak scan —
"for each one re-validates its guards and reports it as a leak with its size
and call-site".  The guard re-validation is the `checkForCorruption` of
src/flloc.c; `struct Record` of src/flloc.c stores no call-site, so only the
size can be reported. -/
def checkRecordReport (guard : Nat) (m : Nat → Nat) (r : Rec) : List ReportLine :=
  (match checkForCorruption guard r m with
   | some a => [ReportLine.corrupt (r.real + guard) a]
   | none => []) ++ [ReportLine.leak (r.real + guard) r.size]

/-- Modelled from the spec: the exit-time leak scan (the `FllocCheck` entry
point invoked by src/unit-test.c, whose definition is absent from src/) —
"enumerates every Registry record, for each one re-validates its guards and
reports it as a leak with its size", "then finally emits a single summary
line stating either no leaks or corruption, or leaving the itemized reports
as the only output". -/
def FllocCheck (st : FllocState) : List ReportLine :=
  let body := (allRecords st).flatMap (checkRecordReport st.guardSize st.mem)
  if body = [] then [ReportLine.summaryOK] else body

/-- The itemized leak lines of a report, as (user pointer, size) pairs. -/
def leakLines (l : List ReportLine) : List (Nat × Nat) :=
  l.filterMap fun x =>
    match x with
    | ReportLine.leak p s => some (p, s)
    | _ => none

/-- A ready-made initialised state with a given guard size: the state reached
right after first-call initialization with no configuration present, with the
guard size then set as stated. -/
def mkInit (guard : Nat) : FllocState :=
  { fllocInitialState with initialised := true, guardSize := guard }

/-- Oracle bundle for an absent `FLLOC_CONFIG`. -/
def ia0 : InitArgs := ⟨none, fun _ => none, true⟩

/-- The state obtained by running a successful `FllocMalloc` (for composing
allocate-then-free scenarios). -/
def afterMalloc (ia : InitArgs) (src : Option String) (ln : Int)
    (st : FllocState) (size real : Nat) : FllocState :=
  stOfD (FllocMalloc ia true (some real) size src ln st) st

/-- The state obtained by running `FllocFree` on a non-null pointer. -/
def afterFree (ia : InitArgs) (src : Option String) (ln : Int)
    (st : FllocState) (ptr : Nat) : FllocState :=
  stOfSD (FllocFree ia (some ptr) src ln st) st

theorem scanGuard_eq_none_iff (m : Nat → Nat) :
    ∀ (n a : Nat), scanGuard m a n = none ↔ ∀ k, k < n → m (a + k) = FLLOC_FILL := by
  intro n
  induction n with
  | zero =>
    intro a
    constructor
    · intro _ k hk; omega
    · intro _; rfl
  | succ n ih =>
    intro a
    by_cases h : m a = FLLOC_FILL
    · rw [show scanGuard m a (n + 1) = scanGuard m (a + 1) n by simp [scanGuard, h]]
      rw [ih (a + 1)]
      constructor
      · intro hall k hk
        cases k with
        | zero => simpa using h
        | succ j =>
          have hj := hall j (by omega)
          have e : a + 1 + j = a + (j + 1) := by omega
          rw [e] at hj
          exact hj
      · intro hall k hk
        have hj := hall (k + 1) (by omega)
        have e : a + (k + 1) = a + 1 + k := by omega
        rw [e] at hj
        exact hj
    · rw [show scanGuard m a (n + 1) = some a by simp [scanGuard, h]]
      constructor
      · intro hc; cases hc
      · intro hall
        exact absurd (by simpa using hall 0 (by omega)) h

theorem checkForCorruption_eq_none_iff (guard : Nat) (rec : Rec) (m : Nat → Nat) :
    checkForCorruption guard rec m = none ↔
      (∀ k, k < guard → m (rec.real + k) = FLLOC_FILL) ∧
        (∀ k, k < guard → m (rec.real + guard + rec.size + k) = FLLOC_FILL) := by
  rcases h : scanGuard m rec.real guard with _ | p
  · rw [show checkForCorruption guard rec m
        = scanGuard m (rec.real + guard + rec.size) guard by
          simp [checkForCorruption, h]]
    rw [scanGuard_eq_none_iff] at h
    rw [scanGuard_eq_none_iff]
    exact ⟨fun h2 => ⟨h, h2⟩, fun hh => hh.2⟩
  · rw [show checkForCorruption guard rec m = some p by simp [checkForCorruption, h]]
    constructor
    · intro hc; cases hc
    · intro hh
      have hnone := (scanGuard_eq_none_iff m guard rec.real).mpr hh.1
      rw [h] at hnone; cases hnone

theorem fillGuard_read (guard real size : Nat) (m : Nat → Nat) (x : Nat)
    (hx : (real ≤ x ∧ x < real + guard) ∨
      (real + guard + size ≤ x ∧ x < real + guard + size + guard)) :
    fillGuard guard real size m x = FLLOC_FILL := by
  have hg : 0 < guard := by omega
  simp only [fillGuard, if_pos hg, memset]
  rcases hx with h | h
  · rw [if_neg (by omega), if_pos (by omega)]
  · rw [if_pos (by omega)]

theorem checkForCorruption_fillGuard (guard real size : Nat) (m : Nat → Nat) :
    checkForCorruption guard ⟨real, size⟩ (fillGuard guard real size m) = none := by
  rw [checkForCorruption_eq_none_iff]
  dsimp only
  constructor
  · intro k hk
    exact fillGuard_read guard real size m _ (Or.inl ⟨by omega, by omega⟩)
  · intro k hk
    exact fillGuard_read guard real size m _ (Or.inr ⟨by omega, by omega⟩)

theorem checkForCorruption_write1_lead (guard real size b : Nat) (m : Nat → Nat)
    (hg : 0 < guard) (hb : b ≠ FLLOC_FILL) :
    checkForCorruption guard ⟨real, size⟩
      (write1 (fillGuard guard real size m) (real + guard - 1) b) ≠ none := by
  intro hc
  rw [checkForCorruption_eq_none_iff] at hc
  have h1 := hc.1 (guard - 1) (by omega)
  rw [show real + (guard - 1) = real + guard - 1 by omega] at h1
  simp only [write1, if_pos rfl] at h1
  exact hb h1

theorem checkForCorruption_write1_trail (guard real size b : Nat) (m : Nat → Nat)
    (hg : 0 < guard) (hb : b ≠ FLLOC_FILL) :
    checkForCorruption guard ⟨real, size⟩
      (write1 (fillGuard guard real size m) (real + guard + size) b) ≠ none := by
  intro hc
  rw [checkForCorruption_eq_none_iff] at hc
  have h1 := hc.2 0 (by omega)
  rw [Nat.add_zero] at h1
  simp only [write1, if_pos rfl] at h1
  exact hb h1

theorem removeFirst_of_forall_ne (x : Nat) :
    ∀ l : List Rec, (∀ r ∈ l, r.real ≠ x) → removeFirst x l = (none, l) := by
  intro l
  induction l with
  | nil => intro _; rfl
  | cons r rs ih =>
    intro h
    have hr : r.real ≠ x := h r (by simp)
    have hrs := ih fun a ha => h a (by simp [ha])
    simp [removeFirst, if_neg hr, hrs]

theorem removeFirst_append (x : Nat) (rec : Rec) (hx : rec.real = x) :
    ∀ l : List Rec, (∀ r ∈ l, r.real ≠ x) → removeFirst x (l ++ [rec]) = (some rec, l) := by
  intro l
  induction l with
  | nil => simp [removeFirst, hx]
  | cons r rs ih =>
    intro h
    have hr : r.real ≠ x := h r (by simp)
    have hrs := ih fun a ha => h a (by simp [ha])
    simp [removeFirst, if_neg hr, hrs]

theorem isRegistered_eq_false_iff (st : FllocState) (x : Nat) :
    isRegistered st x = false ↔ ∀ r ∈ st.buckets (ptr2index x), r.real ≠ x := by
  simp [isRegistered]

theorem initIfNeeded_of_initialised (ia : InitArgs) (st : FllocState)
    (h : st.initialised = true) : initIfNeeded ia st = .ok st := by
  simp [initIfNeeded, h]

/-- C10: `FllocCalloc` computes the user size as `nmemb * mbsize` in wrapping
machine-word multiplication with no overflow check: at
`nmemb = mbsize = 2^32` the mathematical product is `2^64 > 0` but the
tracked size is `0`, the user region is `0` bytes, and the call still
succeeds (a record of size `0` is inserted and a non-null pointer is
returned), with no error reported. -/
theorem claim_C10 :
    truncW (2 ^ 32 * 2 ^ 32) = 0 ∧ 0 < 2 ^ 32 * 2 ^ 32 ∧
    retOf (FllocCalloc ia0 true (some 32) (2 ^ 32) (2 ^ 32) none 0 (mkInit 0))
      = some (some 32) ∧
    (stOfD (FllocCalloc ia0 true (some 32) (2 ^ 32) (2 ^ 32) none 0 (mkInit 0))
      (mkInit 0)).buckets (ptr2index 32) = [⟨32, 0⟩] :=
  ⟨by decide, by decide, by decide, by decide⟩

/-- C9: `FllocStrdup` of a null source aborts, and `FllocStrndup` of a null
source aborts when `n > 0`; but with `n = 0` a null source slips past the
guard `(NULL == s) && (n > 0)` and the code reaches `strlen(s)` on the null
pointer — undefined behaviour instead of the immediate abort the claim
requires. -/
theorem claim_C9 :
    (FllocStrdup ia0 true (some 32) none none 0 (mkInit 0)).isAbort = true ∧
    (FllocStrndup ia0 true (some 32) none 1 none 0 (mkInit 0)).isAbort = true ∧
    FllocStrndup ia0 true (some 32) none 0 none 0 (mkInit 0) = .ub :=
  ⟨by decide, by decide, rfl⟩

/-- C3 counterexample: `FllocMalloc` with `size = 0` (and `FllocCalloc` with
`nmemb * mbsize = 0`) is not special-cased: on an initialised state with
guard size 0, the real allocator is still consulted (its returned address 32
resp. 48 is used), a record is inserted into the registry, and the non-null
user pointer is returned — contradicting the claimed "no allocation" result
with no registry insertion. -/
theorem claim_C3_counterexample :
    retOf (FllocMalloc ia0 true (some 32) 0 none 0 (mkInit 0)) = some (some 32) ∧
    isRegistered (stOfD (FllocMalloc ia0 true (some 32) 0 none 0 (mkInit 0))
      (mkInit 0)) 32 = true ∧
    retOf (FllocCalloc ia0 true (some 48) 0 7 none 0 (mkInit 0)) = some (some 48) ∧
    isRegistered (stOfD (FllocCalloc ia0 true (some 48) 0 7 none 0 (mkInit 0))
      (mkInit 0)) 48 = true :=
  ⟨by decide, by decide, by decide, by decide⟩

/-- C3 amended: for `size = 0` (and `nmemb * mbsize ≡ 0` in the zeroed
variant), Allocate and AllocateZeroed still consult the real allocator
(requesting `2*guardSize` bytes), insert a registry record of size 0, and on
success return the non-null pointer `real + guardSize`. -/
theorem claim_C3_amended (ia : InitArgs) (src : Option String) (ln : Int)
    (st : FllocState) (real nm mb : Nat)
    (hinit : st.initialised = true) (hz : truncW (nm * mb) = 0) :
    retOf (FllocMalloc ia true (some real) 0 src ln st)
      = some (some (real + st.guardSize)) ∧
    (stOfD (FllocMalloc ia true (some real) 0 src ln st) st).buckets
        (ptr2index real)
      = st.buckets (ptr2index real) ++ [⟨real, 0⟩] ∧
    retOf (FllocCalloc ia true (some real) nm mb src ln st)
      = some (some (real + st.guardSize)) ∧
    (stOfD (FllocCalloc ia true (some real) nm mb src ln st) st).buckets
        (ptr2index real)
      = st.buckets (ptr2index real) ++ [⟨real, 0⟩] := by
  have hi := initIfNeeded_of_initialised ia st hinit
  refine ⟨?_, ?_, ?_, ?_⟩
  · simp [FllocMalloc, hi, retOf, recordInsert]
  · simp [FllocMalloc, hi, stOfD, recordInsert, vlog]
  · simp [FllocCalloc, hi, retOf, recordInsert]
  · simp [FllocCalloc, hi, stOfD, recordInsert, vlog, hz]

/-- C3 witness: the amended statement evaluated at an initialised state with
guard size 0, real address 32, and `nmemb = 0`, `mbsize = 7`. -/
theorem claim_C3_witness :
    retOf (FllocMalloc ia0 true (some 32) 0 none 0 (mkInit 0)) = some (some 32) ∧
    (stOfD (FllocMalloc ia0 true (some 32) 0 none 0 (mkInit 0))
        (mkInit 0)).buckets (ptr2index 32)
      = (mkInit 0).buckets (ptr2index 32) ++ [⟨32, 0⟩] ∧
    retOf (FllocCalloc ia0 true (some 32) 0 7 none 0 (mkInit 0)) = some (some 32) ∧
    (stOfD (FllocCalloc ia0 true (some 32) 0 7 none 0 (mkInit 0))
        (mkInit 0)).buckets (ptr2index 32)
      = (mkInit 0).buckets (ptr2index 32) ++ [⟨32, 0⟩] :=
  claim_C3_amended ia0 none 0 (mkInit 0) 32 0 7 rfl (by decide)

/-- C1 counterexample: on an initialised state with an empty registry,
`FllocFree` of the non-null, unregistered pointer 16 does not abort — it
logs one `EV_BADFREE` line and returns — and `FllocRealloc` of the same
unregistered pointer does not abort either (it performs no registration
check at all). -/
theorem claim_C1_counterexample :
    (FllocFree ia0 (some 16) none 0 (mkInit 0)).isAbort = false ∧
    ((stOfSD (FllocFree ia0 (some 16) none 0 (mkInit 0)) (mkInit 0)).output.map
      fun x => x.2.ev) = [Event.badfreeEv] ∧
    (FllocRealloc ia0 true (some 64) (some 16) 8 none 0 (mkInit 0)).isAbort = false :=
  ⟨by decide, by decide, by decide⟩

/-- C1 amended: a Free of a non-null pointer whose resolved real address is
not registered emits an `EV_BADFREE` diagnostic and returns normally (and
the C still passes the unregistered real address to the system `free`),
and a Resize never checks registration and never aborts, whatever the
allocator oracles answer. -/
theorem claim_C1_amended (ia : InitArgs) (src : Option String) (ln : Int)
    (st : FllocState) (p size : Nat) (recOk : Bool) (rres pp : Option Nat)
    (hinit : st.initialised = true)
    (hreg : isRegistered st (p - st.guardSize) = false) :
    (FllocFree ia (some p) src ln st).isAbort = false ∧
    ((stOfSD (FllocFree ia (some p) src ln st) st).output.map fun x => x.2.ev)
      = (st.output.map fun x => x.2.ev) ++ [Event.badfreeEv] ∧
    (FllocRealloc ia recOk rres pp size src ln st).isAbort = false := by
  have hi := initIfNeeded_of_initialised ia st hinit
  have hnone : removeFirst (p - st.guardSize)
      (st.buckets (ptr2index (p - st.guardSize)))
      = (none, st.buckets (ptr2index (p - st.guardSize))) :=
    removeFirst_of_forall_ne _ _ ((isRegistered_eq_false_iff st _).mp hreg)
  refine ⟨?_, ?_, ?_⟩
  · simp [FllocFree, hi, recordRemove, hnone, Outcome.isAbort]
  · simp [FllocFree, hi, recordRemove, hnone, stOfSD, vlog]
  · cases recOk <;> cases rres <;> simp [FllocRealloc, hi, Outcome.isAbort]

/-- C1 witness: the amended statement evaluated at an initialised state with
guard size 0, empty registry, pointer 16. -/
theorem claim_C1_witness :
    (FllocFree ia0 (some 16) none 0 (mkInit 0)).isAbort = false ∧
    ((stOfSD (FllocFree ia0 (some 16) none 0 (mkInit 0)) (mkInit 0)).output.map
      fun x => x.2.ev) = [Event.badfreeEv] ∧
    (FllocRealloc ia0 true (some 64) (some 16) 8 none 0 (mkInit 0)).isAbort = false :=
  claim_C1_amended ia0 none 0 (mkInit 0) 16 8 true (some 64) (some 16) rfl (by decide)

/-- An initialised state (guard size 0) whose registry holds exactly one
record, for the real address 16 with user size 4 (bucket `ptr2index 16 = 1`). -/
def stC4 : FllocState :=
  { mkInit 0 with buckets := fun i => if i = 1 then [⟨16, 4⟩] else [] }

/-- C4 counterexample: resizing the registered user pointer 16 (guard size 0,
so its real address is 16) with the underlying `realloc` answering the new
address 100 leaves the OLD record `⟨16, 4⟩` in place — the old real address
is still registered afterwards — while a second record `⟨100, 8⟩` is
inserted; the claimed removal of the old record never happens. -/
theorem claim_C4_counterexample :
    retOf (FllocRealloc ia0 true (some 100) (some 16) 8 none 0 stC4)
      = some (some 100) ∧
    isRegistered (stOfD (FllocRealloc ia0 true (some 100) (some 16) 8 none 0 stC4)
      stC4) 16 = true ∧
    (stOfD (FllocRealloc ia0 true (some 100) (some 16) 8 none 0 stC4)
      stC4).buckets 1 = [⟨16, 4⟩] ∧
    (stOfD (FllocRealloc ia0 true (some 100) (some 16) 8 none 0 stC4)
      stC4).buckets (ptr2index 100) = [⟨100, 8⟩] :=
  ⟨by decide, by decide, by decide, by decide⟩

/-- C4 amended: a successful Resize inserts a new record for the resized
block at the tail of its bucket and removes nothing: every bucket keeps all
its previous records, so the old real address stays registered (its stale
record survives until the exit-time scan reports it as a leak). -/
theorem claim_C4_amended (ia : InitArgs) (src : Option String) (ln : Int)
    (st : FllocState) (p : Option Nat) (size real : Nat)
    (hinit : st.initialised = true) :
    retOf (FllocRealloc ia true (some real) p size src ln st)
      = some (some (real + st.guardSize)) ∧
    (stOfD (FllocRealloc ia true (some real) p size src ln st) st).buckets
      = fun i => st.buckets i ++ if i = ptr2index real then [⟨real, size⟩] else [] := by
  have hi := initIfNeeded_of_initialised ia st hinit
  constructor
  · simp [FllocRealloc, hi, retOf, recordInsert]
  · funext i
    by_cases hip : i = ptr2index real <;>
      simp [FllocRealloc, hi, stOfD, recordInsert, vlog, hip]

/-- C4 witness: the amended statement evaluated at an initialised state with
guard size 1, old pointer 99, new size 8, and the allocator returning the
real address 48. -/
theorem claim_C4_witness :
    retOf (FllocRealloc ia0 true (some 48) (some 99) 8 none 0 (mkInit 1))
      = some (some 49) ∧
    (stOfD (FllocRealloc ia0 true (some 48) (some 99) 8 none 0 (mkInit 1))
        (mkInit 1)).buckets
      = fun i => (mkInit 1).buckets i ++ if i = ptr2index 48 then [⟨48, 8⟩] else [] :=
  claim_C4_amended ia0 none 0 (mkInit 1) (some 99) 8 48 rfl

/-- C7 counterexample: before any configuration is read — and still after
initialization with no `FLLOC_CONFIG` present — the guard size is 0 (not a
non-zero default) and the output destination is the null stream `gFile =
NULL` (not the process standard error stream): a line written by the logging
path is destined to the null stream. -/
theorem claim_C7_counterexample :
    fllocInitialState.guardSize = 0 ∧
    (stOfSD (initIfNeeded ia0 fllocInitialState) fllocInitialState).guardSize = 0 ∧
    (stOfSD (initIfNeeded ia0 fllocInitialState) fllocInitialState).file
      = OutDest.nullFile ∧
    OutDest.nullFile ≠ OutDest.stdErr ∧
    ((vlog (stOfSD (initIfNeeded ia0 fllocInitialState) fllocInitialState)
      Event.userEv none 0 []).output.map Prod.fst) = [OutDest.nullFile] :=
  ⟨rfl, rfl, rfl, by decide, rfl⟩

/-- C7 amended: until `FLLOC_CONFIG` overrides them, the guard size defaults
to ZERO (guards disabled) and the output destination defaults to the null
stream (`gFile = NULL`); the logging path writes to that null destination,
never to standard error. -/
theorem claim_C7_amended :
    (∀ openF dupOk,
      initIfNeeded ⟨none, openF, dupOk⟩ fllocInitialState = .ok (mkInit 0)) ∧
    (mkInit 0).guardSize = 0 ∧
    (mkInit 0).file = OutDest.nullFile ∧
    (∀ ev src ln args,
      (vlog (mkInit 0) ev src ln args).output.map Prod.fst = [OutDest.nullFile]) :=
  ⟨fun _ _ => rfl, rfl, rfl, fun _ _ _ _ => rfl⟩

/-- C8: whenever the real underlying allocator returns no memory (the
capacity allocation oracle answers `none`; last conjunct: the internal
record allocation fails instead), every operation — Allocate, AllocateZeroed,
Resize, string duplication (bounded and unbounded) — returns the null
pointer to its caller and leaves the registry untouched: the bucket table is
unchanged, so nothing was inserted and nothing was removed. -/
theorem claim_C8 (ia : InitArgs) (src : Option String) (ln : Int)
    (st : FllocState) (size nm mb n : Nat) (p : Option Nat) (str : List Nat)
    (hinit : st.initialised = true) :
    (retOf (FllocMalloc ia true none size src ln st) = some none ∧
      (stOfD (FllocMalloc ia true none size src ln st) st).buckets = st.buckets) ∧
    (retOf (FllocCalloc ia true none nm mb src ln st) = some none ∧
      (stOfD (FllocCalloc ia true none nm mb src ln st) st).buckets = st.buckets) ∧
    (retOf (FllocRealloc ia true none p size src ln st) = some none ∧
      (stOfD (FllocRealloc ia true none p size src ln st) st).buckets = st.buckets) ∧
    (retOf (FllocStrdup ia true none (some str) src ln st) = some none ∧
      (stOfD (FllocStrdup ia true none (some str) src ln st) st).buckets = st.buckets) ∧
    (retOf (FllocStrndup ia true none (some str) n src ln st) = some none ∧
      (stOfD (FllocStrndup ia true none (some str) n src ln st) st).buckets
        = st.buckets) ∧
    (retOf (FllocMalloc ia false (some 99) size src ln st) = some none ∧
      (stOfD (FllocMalloc ia false (some 99) size src ln st) st).buckets
        = st.buckets) := by
  have hi := initIfNeeded_of_initialised ia st hinit
  refine ⟨⟨?_, ?_⟩, ⟨?_, ?_⟩, ⟨?_, ?_⟩, ⟨?_, ?_⟩, ⟨?_, ?_⟩, ⟨?_, ?_⟩⟩ <;>
    simp [FllocMalloc, FllocCalloc, FllocRealloc, FllocStrdup, FllocStrndup,
      hi, retOf, stOfD, vlog]

/-- C8 witness: the statement evaluated at an initialised state with guard
size 2 and concrete sizes, pointer, and string. -/
theorem claim_C8_witness :
    (retOf (FllocMalloc ia0 true none 5 none 0 (mkInit 2)) = some none ∧
      (stOfD (FllocMalloc ia0 true none 5 none 0 (mkInit 2)) (mkInit 2)).buckets
        = (mkInit 2).buckets) ∧
    (retOf (FllocCalloc ia0 true none 3 4 none 0 (mkInit 2)) = some none ∧
      (stOfD (FllocCalloc ia0 true none 3 4 none 0 (mkInit 2)) (mkInit 2)).buckets
        = (mkInit 2).buckets) ∧
    (retOf (FllocRealloc ia0 true none (some 16) 5 none 0 (mkInit 2)) = some none ∧
      (stOfD (FllocRealloc ia0 true none (some 16) 5 none 0 (mkInit 2))
        (mkInit 2)).buckets = (mkInit 2).buckets) ∧
    (retOf (FllocStrdup ia0 true none (some [65, 66]) none 0 (mkInit 2)) = some none ∧
      (stOfD (FllocStrdup ia0 true none (some [65, 66]) none 0 (mkInit 2))
        (mkInit 2)).buckets = (mkInit 2).buckets) ∧
    (retOf (FllocStrndup ia0 true none (some [65, 66]) 7 none 0 (mkInit 2))
        = some none ∧
      (stOfD (FllocStrndup ia0 true none (some [65, 66]) 7 none 0 (mkInit 2))
        (mkInit 2)).buckets = (mkInit 2).buckets) ∧
    (retOf (FllocMalloc ia0 false (some 99) 5 none 0 (mkInit 2)) = some none ∧
      (stOfD (FllocMalloc ia0 false (some 99) 5 none 0 (mkInit 2))
        (mkInit 2)).buckets = (mkInit 2).buckets) :=
  claim_C8 ia0 none 0 (mkInit 2) 5 3 4 7 (some 16) [65, 66] rfl

/-- The event of one output line. -/
def evOf (x : OutDest × LogLine) : Event := x.2.ev

/-- The state after a successful `FllocMalloc`, written out: guards stamped,
the record appended to its bucket, one `EV_MALLOC` line logged. -/
def mallocSt (st : FllocState) (src : Option String) (ln : Int)
    (size real : Nat) : FllocState :=
  { st with
    mem := fillGuard st.guardSize real size st.mem
    buckets := fun i =>
      if i = ptr2index real then st.buckets i ++ [⟨real, size⟩] else st.buckets i
    output := st.output ++ [(st.file, ⟨Event.mallocEv, src, ln,
      [real + st.guardSize, real, size, truncW (size + 2 * st.guardSize)]⟩)] }

theorem FllocMalloc_success (ia : InitArgs) (src : Option String) (ln : Int)
    (st : FllocState) (size real : Nat) (hinit : st.initialised = true) :
    FllocMalloc ia true (some real) size src ln st
      = .ok (some (real + st.guardSize), mallocSt st src ln size real) := by
  simp [FllocMalloc, initIfNeeded_of_initialised ia st hinit, recordInsert,
    vlog, mallocSt]

theorem FllocFree_found (ia : InitArgs) (src : Option String) (ln : Int)
    (st : FllocState) (p real : Nat) (rec : Rec) (l : List Rec)
    (hinit : st.initialised = true)
    (hp : p - st.guardSize = real)
    (hb : st.buckets (ptr2index real) = l ++ [rec])
    (hrec : rec.real = real)
    (hl : ∀ r ∈ l, r.real ≠ real)
    (hchk : checkForCorruption st.guardSize rec st.mem = none) :
    FllocFree ia (some p) src ln st
      = .ok { st with
          buckets := fun j => if j = ptr2index real then l else st.buckets j
          output := st.output
            ++ [(st.file, ⟨Event.freeEv, src, ln, [p, real]⟩)] } := by
  have hrm : removeFirst real (st.buckets (ptr2index real)) = (some rec, l) := by
    rw [hb]; exact removeFirst_append real rec hrec l hl
  simp [FllocFree, initIfNeeded_of_initialised ia st hinit, recordRemove, hp,
    hrm, hchk, vlog]

theorem FllocFree_notfound (ia : InitArgs) (src : Option String) (ln : Int)
    (st : FllocState) (p : Nat)
    (hinit : st.initialised = true)
    (hreg : isRegistered st (p - st.guardSize) = false) :
    (FllocFree ia (some p) src ln st).isAbort = false ∧
    (stOfSD (FllocFree ia (some p) src ln st) st).output
      = st.output ++ [(st.file,
          ⟨Event.badfreeEv, src, ln, [p, p - st.guardSize]⟩)] := by
  have hi := initIfNeeded_of_initialised ia st hinit
  have hnone : removeFirst (p - st.guardSize)
      (st.buckets (ptr2index (p - st.guardSize)))
      = (none, st.buckets (ptr2index (p - st.guardSize))) :=
    removeFirst_of_forall_ne _ _ ((isRegistered_eq_false_iff st _).mp hreg)
  constructor
  · simp [FllocFree, hi, recordRemove, hnone, Outcome.isAbort]
  · simp [FllocFree, hi, recordRemove, hnone, stOfSD, vlog]

/-- C5: for `size > 0` and ANY configured guard size, a successful Allocate
at a fresh real address followed immediately by Free of the returned user
pointer, with no intervening write, reports no corruption (the free appends
exactly one `EV_FREE` line — no `EV_PLOUGH`), removes the real address from
the registry, and a second Free of the same pointer takes the
protocol-violation path (it finds no record and emits `EV_BADFREE`). -/
theorem claim_C5 (ia : InitArgs) (src : Option String) (ln : Int)
    (st : FllocState) (size real : Nat)
    (hinit : st.initialised = true) (hsz : 0 < size)
    (hfresh : isRegistered st real = false) :
    retOf (FllocMalloc ia true (some real) size src ln st)
      = some (some (real + st.guardSize)) ∧
    ((afterFree ia src ln (afterMalloc ia src ln st size real)
        (real + st.guardSize)).output.map evOf)
      = ((afterMalloc ia src ln st size real).output.map evOf)
          ++ [Event.freeEv] ∧
    isRegistered (afterFree ia src ln (afterMalloc ia src ln st size real)
        (real + st.guardSize)) real = false ∧
    ((afterFree ia src ln
        (afterFree ia src ln (afterMalloc ia src ln st size real)
          (real + st.guardSize))
        (real + st.guardSize)).output.map evOf)
      = ((afterFree ia src ln (afterMalloc ia src ln st size real)
          (real + st.guardSize)).output.map evOf) ++ [Event.badfreeEv] := by
  have hm := FllocMalloc_success ia src ln st size real hinit
  have hAM : afterMalloc ia src ln st size real = mallocSt st src ln size real := by
    simp [afterMalloc, hm, stOfD]
  have hl : ∀ r ∈ st.buckets (ptr2index real), r.real ≠ real :=
    (isRegistered_eq_false_iff st real).mp hfresh
  have hst1init : (mallocSt st src ln size real).initialised = true := hinit
  have hp1 : (real + st.guardSize) - (mallocSt st src ln size real).guardSize
      = real := by
    show (real + st.guardSize) - st.guardSize = real
    omega
  have hb1 : (mallocSt st src ln size real).buckets (ptr2index real)
      = st.buckets (ptr2index real) ++ [⟨real, size⟩] := by
    simp [mallocSt]
  have hchk1 : checkForCorruption (mallocSt st src ln size real).guardSize
      (⟨real, size⟩ : Rec) (mallocSt st src ln size real).mem = none := by
    show checkForCorruption st.guardSize ⟨real, size⟩
      (fillGuard st.guardSize real size st.mem) = none
    exact checkForCorruption_fillGuard st.guardSize real size st.mem
  have hf := FllocFree_found ia src ln (mallocSt st src ln size real)
    (real + st.guardSize) real ⟨real, size⟩ (st.buckets (ptr2index real))
    hst1init hp1 hb1 rfl hl hchk1
  have hAF : afterFree ia src ln (mallocSt st src ln size real)
      (real + st.guardSize)
      = { mallocSt st src ln size real with
          buckets := fun j => if j = ptr2index real
            then st.buckets (ptr2index real)
            else (mallocSt st src ln size real).buckets j
          output := (mallocSt st src ln size real).output
            ++ [((mallocSt st src ln size real).file,
              ⟨Event.freeEv, src, ln, [real + st.guardSize, real]⟩)] } := by
    simp [afterFree, hf, stOfSD]
  have hreg2 : isRegistered (afterFree ia src ln (mallocSt st src ln size real)
      (real + st.guardSize)) real = false := by
    rw [hAF]
    simpa [isRegistered] using hfresh
  refine ⟨by simp [hm, retOf], ?_, ?_, ?_⟩
  · rw [hAM, hAF]
    simp [evOf]
  · rw [hAM]
    exact hreg2
  · rw [hAM]
    have hreg2' : isRegistered (afterFree ia src ln (mallocSt st src ln size real)
        (real + st.guardSize))
        ((real + st.guardSize)
          - (afterFree ia src ln (mallocSt st src ln size real)
              (real + st.guardSize)).guardSize) = false := by
      have hg2 : (afterFree ia src ln (mallocSt st src ln size real)
          (real + st.guardSize)).guardSize = st.guardSize := by
        rw [hAF]; rfl
      rw [hg2, Nat.add_sub_cancel]
      exact hreg2
    have hnf := FllocFree_notfound ia src ln
      (afterFree ia src ln (mallocSt st src ln size real) (real + st.guardSize))
      (real + st.guardSize) (by rw [hAF]; exact hinit) hreg2'
    rw [afterFree, hnf.2]
    simp [evOf]

/-- C5 witness: the statement evaluated at an initialised state with guard
size 2, size 3, fresh real address 32 (user pointer 34). -/
theorem claim_C5_witness :
    retOf (FllocMalloc ia0 true (some 32) 3 none 0 (mkInit 2))
      = some (some 34) ∧
    ((afterFree ia0 none 0 (afterMalloc ia0 none 0 (mkInit 2) 3 32) 34).output.map
      evOf)
      = ((afterMalloc ia0 none 0 (mkInit 2) 3 32).output.map evOf)
          ++ [Event.freeEv] ∧
    isRegistered (afterFree ia0 none 0 (afterMalloc ia0 none 0 (mkInit 2) 3 32) 34)
      32 = false ∧
    ((afterFree ia0 none 0
        (afterFree ia0 none 0 (afterMalloc ia0 none 0 (mkInit 2) 3 32) 34)
        34).output.map evOf)
      = ((afterFree ia0 none 0 (afterMalloc ia0 none 0 (mkInit 2) 3 32)
          34).output.map evOf) ++ [Event.badfreeEv] :=
  claim_C5 ia0 none 0 (mkInit 2) 3 32 rfl (by decide) (by decide)

/-- C6: for a tracked allocation with a positive guard size whose guards
have just been stamped, every validate passes before any stray write
happens; after writing one byte (with any value other than the sentinel)
immediately before the user pointer, or at offset `userSize` past it, the
very next validate fails; and a Free performed on such a corrupted record
emits the `EV_PLOUGH` corruption report before its `EV_FREE` line. -/
theorem claim_C6 (ia : InitArgs) (src : Option String) (ln : Int)
    (real size guard b : Nat) (m : Nat → Nat)
    (hg : 0 < guard) (hb : b ≠ FLLOC_FILL) :
    checkForCorruption guard ⟨real, size⟩ (fillGuard guard real size m) = none ∧
    checkForCorruption guard ⟨real, size⟩
      (write1 (fillGuard guard real size m) (real + guard - 1) b) ≠ none ∧
    checkForCorruption guard ⟨real, size⟩
      (write1 (fillGuard guard real size m) (real + guard + size) b) ≠ none ∧
    ((stOfSD (FllocFree ia (some (real + guard)) src ln
        { initialised := true, guardSize := guard, file := .nullFile
          buckets := fun i => if i = ptr2index real then [⟨real, size⟩] else []
          mem := write1 (fillGuard guard real size m) (real + guard - 1) b
          exitHooks := 0, output := [] })
      { initialised := true, guardSize := guard, file := .nullFile
        buckets := fun i => if i = ptr2index real then [⟨real, size⟩] else []
        mem := write1 (fillGuard guard real size m) (real + guard - 1) b
        exitHooks := 0, output := [] }).output.map evOf)
      = [Event.ploughEv, Event.freeEv] := by
  refine ⟨checkForCorruption_fillGuard guard real size m,
    checkForCorruption_write1_lead guard real size b m hg hb,
    checkForCorruption_write1_trail guard real size b m hg hb, ?_⟩
  have hrm : removeFirst real [(⟨real, size⟩ : Rec)]
      = (some ⟨real, size⟩, []) := by
    simp [removeFirst]
  rcases hcc : checkForCorruption guard (⟨real, size⟩ : Rec)
      (write1 (fillGuard guard real size m) (real + guard - 1) b) with _ | a
  · exact absurd hcc
      (checkForCorruption_write1_lead guard real size b m hg hb)
  · simp [FllocFree, initIfNeeded, recordRemove, Nat.add_sub_cancel, hrm,
      hcc, stOfSD, vlog, evOf]

/-- C6 witness: guard size 1, user size 2, real address 16 (user pointer 17),
corrupting byte value 0, on an all-zero memory. -/
theorem claim_C6_witness :
    checkForCorruption 1 ⟨16, 2⟩ (fillGuard 1 16 2 fun _ => 0) = none ∧
    checkForCorruption 1 ⟨16, 2⟩
      (write1 (fillGuard 1 16 2 fun _ => 0) 16 0) ≠ none ∧
    checkForCorruption 1 ⟨16, 2⟩
      (write1 (fillGuard 1 16 2 fun _ => 0) 19 0) ≠ none ∧
    ((stOfSD (FllocFree ia0 (some 17) none 0
        { initialised := true, guardSize := 1, file := .nullFile
          buckets := fun i => if i = ptr2index 16 then [⟨16, 2⟩] else []
          mem := write1 (fillGuard 1 16 2 fun _ => 0) 16 0
          exitHooks := 0, output := [] })
      { initialised := true, guardSize := 1, file := .nullFile
        buckets := fun i => if i = ptr2index 16 then [⟨16, 2⟩] else []
        mem := write1 (fillGuard 1 16 2 fun _ => 0) 16 0
        exitHooks := 0, output := [] }).output.map evOf)
      = [Event.ploughEv, Event.freeEv] :=
  claim_C6 ia0 none 0 16 2 1 0 (fun _ => 0) (by decide) (by decide)

theorem parseConfig_exitHooks (openF : String → Option Nat) (n v : String)
    (st st' : FllocState) (h : parseConfig openF n v st = .ok st') :
    st'.exitHooks = st.exitHooks := by
  unfold parseConfig at h
  by_cases h1 : n = "FILE"
  · rw [if_pos h1] at h
    cases ho : openF v with
    | none => rw [ho] at h; cases h
    | some k => rw [ho] at h; cases h; rfl
  · rw [if_neg h1] at h
    by_cases h2 : n = "GUARD"
    · rw [if_pos h2] at h
      cases ht : v.toNat? with
      | none => rw [ht] at h; cases h
      | some k => rw [ht] at h; cases h; rfl
    · rw [if_neg h2] at h
      cases h; rfl

theorem applyConfigTokens_exitHooks (openF : String → Option Nat) :
    ∀ (ts : List (String × String)) (st st' : FllocState),
      applyConfigTokens openF ts st = .ok st' → st'.exitHooks = st.exitHooks := by
  intro ts
  induction ts with
  | nil => intro st st' h; cases h; rfl
  | cons t rest ih =>
    intro st st' h
    obtain ⟨n, v⟩ := t
    unfold applyConfigTokens at h
    cases hp : parseConfig openF n v st with
    | ok s1 =>
      rw [hp] at h
      rw [ih s1 st' h, parseConfig_exitHooks openF n v st s1 hp]
    | abort => rw [hp] at h; cases h
    | ub => rw [hp] at h; cases h

theorem initIfNeeded_exitHooks (ia : InitArgs) (st : FllocState) :
    (stOfSD (initIfNeeded ia st) st).exitHooks = st.exitHooks := by
  unfold initIfNeeded
  by_cases hI : st.initialised
  · rw [if_pos hI]; rfl
  · rw [if_neg hI]
    cases he : ia.env with
    | none => rfl
    | some s =>
      dsimp only
      by_cases hd : ia.dupOk = true
      · rw [if_pos hd]
        cases ha : applyConfigTokens ia.openF (configTokens s)
            { st with initialised := true, buckets := fun _ => [] } with
        | ok s' =>
          have := applyConfigTokens_exitHooks ia.openF (configTokens s)
            { st with initialised := true, buckets := fun _ => [] } s' ha
          simp [stOfSD, ha, this]
        | abort => simp [stOfSD, ha]
        | ub => simp [stOfSD, ha]
      · rw [if_neg hd]; rfl

theorem leakLines_append (l1 l2 : List ReportLine) :
    leakLines (l1 ++ l2) = leakLines l1 ++ leakLines l2 := by
  simp [leakLines, List.filterMap_append]

theorem leakLines_checkRecordReport (g : Nat) (m : Nat → Nat) (r : Rec) :
    leakLines (checkRecordReport g m r) = [(r.real + g, r.size)] := by
  unfold checkRecordReport
  cases h : checkForCorruption g r m <;> simp [leakLines]

theorem checkRecordReport_ne_nil (g : Nat) (m : Nat → Nat) (r : Rec) :
    checkRecordReport g m r ≠ [] := by
  unfold checkRecordReport
  cases h : checkForCorruption g r m <;> simp

theorem summaryOK_not_mem_checkRecordReport (g : Nat) (m : Nat → Nat) (r : Rec) :
    ReportLine.summaryOK ∉ checkRecordReport g m r := by
  unfold checkRecordReport
  cases h : checkForCorruption g r m <;> simp

theorem leakLines_flatMap (g : Nat) (m : Nat → Nat) :
    ∀ l : List Rec,
      leakLines (l.flatMap (checkRecordReport g m))
        = l.map fun r => (r.real + g, r.size) := by
  intro l
  induction l with
  | nil => rfl
  | cons r rs ih =>
    rw [List.flatMap_cons, leakLines_append, leakLines_checkRecordReport,
      List.map_cons, ih]
    rfl

theorem flatMap_checkRecordReport_eq_nil_iff (g : Nat) (m : Nat → Nat)
    (l : List Rec) : l.flatMap (checkRecordReport g m) = [] ↔ l = [] := by
  cases l with
  | nil => simp
  | cons r rs => simp [List.flatMap_cons, checkRecordReport_ne_nil]

/-- C2 counterexample: starting from the static initial state (no exit hook
registered), lazy initialization still registers no process-exit hook:
`initIfNeeded` contains no `atexit` call, so the exit-hook count stays 0. -/
theorem claim_C2_counterexample :
    fllocInitialState.exitHooks = 0 ∧
    fllocInitialState.initialised = false ∧
    (stOfSD (initIfNeeded ia0 fllocInitialState) fllocInitialState).exitHooks = 0 :=
  ⟨rfl, rfl, rfl⟩

/-- C2 amended: lazy initialization registers NO process-exit hook (the
exit-hook count is preserved on every path of `initIfNeeded`); the leak scan
is instead the separate explicit entry point `FllocCheck` (called by
src/unit-test.c, modelled from the spec as its definition is absent from
src/), which reports exactly one leak line per still-registered allocation,
each carrying that record's user pointer and correct size (no call-site:
`struct Record` stores none), and emits the single "no leaks or corruption"
summary line exactly when the registry holds no record at all. -/
theorem claim_C2_amended :
    (∀ ia st, (stOfSD (initIfNeeded ia st) st).exitHooks = st.exitHooks) ∧
    (∀ st, leakLines (FllocCheck st)
      = (allRecords st).map fun r => (r.real + st.guardSize, r.size)) ∧
    (∀ st, ReportLine.summaryOK ∈ FllocCheck st ↔ allRecords st = []) := by
  refine ⟨initIfNeeded_exitHooks, ?_, ?_⟩
  · intro st
    unfold FllocCheck
    dsimp only
    by_cases hb : (allRecords st).flatMap (checkRecordReport st.guardSize st.mem)
        = []
    · rw [if_pos hb, (flatMap_checkRecordReport_eq_nil_iff _ _ _).mp hb]
      simp [leakLines]
    · rw [if_neg hb]
      exact leakLines_flatMap st.guardSize st.mem (allRecords st)
  · intro st
    unfold FllocCheck
    dsimp only
    by_cases hb : (allRecords st).flatMap (checkRecordReport st.guardSize st.mem)
        = []
    · rw [if_pos hb, (flatMap_checkRecordReport_eq_nil_iff _ _ _).mp hb]
      simp
    · rw [if_neg hb]
      constructor
      · intro hmem
        obtain ⟨r, _, hmem'⟩ := List.mem_flatMap.mp hmem
        exact absurd hmem' (summaryOK_not_mem_checkRecordReport _ _ r)
      · intro hnil
        exact absurd (by rw [hnil]; rfl) hb

end Flloc


